import Mathlib

/- Verification of the job-orchestration service in src/main.py: the job
   lifecycle state machine, the per-job event channel, the cancellation
   race, link extraction, and the HTTP control surface.

   Modelling conventions.  Python None/Optional becomes Option; dict
   result payloads become the JobResult structure; datetime strings are
   abstracted to a set/unset flag on completed_at (their exact value is
   not claimed); uuid4 is abstracted to a fresh counter-based id.  The
   cooperative asyncio interleaving of the Runner coroutine
   (run_agent_job), its heartbeat sub-task and the external cancel
   handler (cancel_job) is modelled as a labelled transition system
   whose atomic steps are exactly the blocks of code between true
   suspension points: `await agent.run()`, `await asyncio.sleep`,
   `await hb`, and initial task scheduling.  Calls such as
   `await emit(...)` (an unbounded asyncio.Queue put) and
   `await upload_frame(...)` (no internal await) never suspend, so the
   code between real suspension points runs atomically on the single
   event loop. -/

namespace BrowserAgent

/-- Job status strings of src/main.py: pending, running, completed,
error, cancelled. -/
inductive Status
  | pending
  | running
  | completed
  | error
  | cancelled
  deriving DecidableEq, Repr

/-- The result dict stored in job.result: a summary (the raw agent
output, possibly None) and, on the success path, the extracted links. -/
structure JobResult where
  summary : Option String
  links : Option (List String) := none
  deriving DecidableEq, Repr

/-- Events pushed onto job.events_queue by emit(); the ts timestamp
field is abstracted away (nothing is claimed about it). -/
inductive Event
  | browser_started (jobId task : String)
  | browser_action (text : String)
  | browser_frame (url : String)
  | browser_error (message : String)
  | browser_done (result : JobResult)
  deriving DecidableEq, Repr

/-- StartJobRequest of src/main.py lines 44-50.  The model default
comes from the BROWSER_USE_MODEL environment variable, else the fixed
string; the environment read is abstracted into the default value. -/
structure StartJobRequest where
  task : String
  domains : Option (List String) := none
  max_steps : Option Int := some 20
  model : Option String := some "gpt-4.1-mini"
  deriving DecidableEq, Repr

/-- The mutable Job record (src/main.py lines 61-71).  started_at and
the supabase handle are abstracted (the handle only feeds upload_frame,
which the environment models); completed_at is abstracted to a set flag;
events_queue records every event ever pushed, in push order. -/
structure Job where
  id : String
  req : StartJobRequest
  status : Status
  completed_at : Bool
  result : Option JobResult
  events_queue : List Event
  cancel_event : Bool
  deriving DecidableEq, Repr

/-- Job.__init__: pending status, no timestamps, no result, empty
queue, cancel flag clear. -/
def mkJob (job_id : String) (req : StartJobRequest) : Job :=
  { id := job_id, req := req, status := .pending, completed_at := false,
    result := none, events_queue := [], cancel_event := false }

/-- emit() appends one event at the queue tail (FIFO channel). -/
def pushEvent (j : Job) (e : Event) : Job :=
  { j with events_queue := j.events_queue ++ [e] }

/- ------------------------------------------------------------------
   Link extraction: re.findall(r"https?://[^\s)]+", text)
   (src/main.py line 155).  re.findall scans left to right, at each
   position takes the leftmost match, consumes it (maximal body, since
   [^\s)]+ is greedy with nothing after it), and resumes after it.
   ------------------------------------------------------------------ -/

/-- The regex class \s over the str type: ASCII whitespace characters
(non-ASCII unicode whitespace is abstracted away; no claim involves
it). -/
def isSpaceChar (c : Char) : Bool :=
  c = ' ' || c = '\t' || c = '\n' || c = '\r' || c = '\x0b' || c = '\x0c'

/-- One character of the class [^\s)] in the URL regex. -/
def isLinkChar (c : Char) : Bool :=
  !(isSpaceChar c) && c != ')'

/-- Consume the literal pattern from the front of the input, returning
the remainder on success. -/
def dropLit : List Char → List Char → Option (List Char)
  | [], s => some s
  | _ :: _, [] => none
  | p :: ps, c :: cs => if p = c then dropLit ps cs else none

/-- Match the scheme part https?:// at the current position.  The
greedy s? of the regex tries https:// first, then http://; no other
backtracking outcome is possible for this pattern. -/
def matchSchemeAt (s : List Char) : Option (List Char × List Char) :=
  match dropLit "https://".toList s with
  | some r => some ("https://".toList, r)
  | none =>
    match dropLit "http://".toList s with
    | some r => some ("http://".toList, r)
    | none => none

/-- Match the full regex https?://[^\s)]+ anchored at the current
position: scheme, then a maximal nonempty run of link characters.
Returns the matched substring and the rest of the input. -/
def matchUrlAt (s : List Char) : Option (List Char × List Char) :=
  match matchSchemeAt s with
  | none => none
  | some (sch, r) =>
    let body := r.takeWhile isLinkChar
    if body.isEmpty then none
    else some (sch ++ body, r.drop body.length)

/-- re.findall scan with explicit fuel.  Each recursive call strictly
shrinks the input (a match consumes at least the seven scheme
characters plus one body character, a non-match advances one
character), so fuel equal to the input length never runs out. -/
def findAllAux : Nat → List Char → List (List Char)
  | 0, _ => []
  | _ + 1, [] => []
  | fuel + 1, c :: cs =>
    match matchUrlAt (c :: cs) with
    | some (m, rest) => m :: findAllAux fuel rest
    | none => findAllAux fuel cs

/-- re.findall(r"https?://[^\s)]+", text): every match in order of
first appearance, duplicates preserved. -/
def extract_links (text : String) : List String :=
  (findAllAux text.toList.length text.toList).map List.asString

/- ------------------------------------------------------------------
   The Runner / heartbeat / cancel transition system.
   ------------------------------------------------------------------ -/

/-- The environment of a single job run: the external collaborators of
src/main.py.  agentAvailable models whether the browser_use import
succeeded (Agent and ChatOpenAI not None); constructFail gives the
message of an exception raised by ChatOpenAI(model=...) or
Agent(task=..., llm=...), as a function of the task text and model;
runResult gives the outcome of await agent.run() (either the returned
result_text, itself possibly None, or the message of a raised
exception); hbFrame and finalFrame give the signed url produced by
generate_placeholder_frame_bytes plus upload_frame, none when rendering
or uploading is unavailable or fails (those failures are swallowed). -/
structure Env where
  agentAvailable : Bool
  constructFail : String → Option String → Option String
  runResult : String → Option String → Except String (Option String)
  hbFrame : Nat → Option String
  finalFrame : Option String

/-- Program counter of the run_agent_job coroutine, marking its true
suspension points: not yet started (the created task has not run),
suspended at await agent.run(), suspended at await hb after a
successful run (carrying the returned result_text), or returned. -/
inductive RunnerPc
  | start
  | awaitingAgent
  | awaitingHb (result_text : Option String)
  | done
  deriving DecidableEq, Repr

/-- State of one job together with its Runner task and heartbeat
sub-task.  hbAlive is true while the heartbeat loop can still run
another iteration; hbStep is its step counter. -/
structure SysState where
  job : Job
  pc : RunnerPc
  hbAlive : Bool
  hbStep : Nat
  deriving Repr

/-- The state right after start_job: a fresh pending job whose Runner
task is scheduled but has not executed any instruction. -/
def initSys (job_id : String) (req : StartJobRequest) : SysState :=
  { job := mkJob job_id req, pc := .start, hbAlive := false, hbStep := 0 }

/-- The except block of run_agent_job (lines 169-175): status error,
completed_at stamped, result set to the Error: message, then a
browser_error and a browser_done event. -/
def errorBody (j : Job) (msg : String) : Job :=
  let r : JobResult := { summary := some ("Error: " ++ msg) }
  let j := { j with status := .error, completed_at := true, result := some r }
  let j := pushEvent j (.browser_error msg)
  pushEvent j (.browser_done r)

/-- Lines 107-109 of run_agent_job: set status running and emit the
browser_started event. -/
def startedJob (j : Job) : Job :=
  pushEvent { j with status := .running } (.browser_started j.id j.req.task)

/-- Degraded short-circuit of run_agent_job (lines 112-116) when
browser_use is not importable: emit browser_error, set status error,
stamp completed_at, set the fixed diagnostic result, emit
browser_done. -/
def unavailableBody (j : Job) : Job :=
  let j := pushEvent j (.browser_error "browser_use not installed")
  let r : JobResult := { summary := some "browser_use not installed on server" }
  let j := { j with status := .error, completed_at := true, result := some r }
  pushEvent j (.browser_done r)

/-- First atomic block of run_agent_job (lines 107-146): set status
running, emit browser_started, then either the degraded short-circuit
when browser_use is not importable (lines 111-117), or construct the
llm and agent (an exception lands in the except block), start the
heartbeat task and suspend at await agent.run(). -/
def runnerStartStep (env : Env) (s : SysState) : SysState :=
  if !env.agentAvailable then
    { s with job := unavailableBody (startedJob s.job), pc := .done }
  else
    match env.constructFail s.job.req.task s.job.req.model with
    | some msg => { s with job := errorBody (startedJob s.job) msg, pc := .done }
    | none =>
      { s with job := startedJob s.job, pc := .awaitingAgent, hbAlive := true, hbStep := 0 }

/-- One wake-up of the heartbeat loop (lines 124-141), atomic between
two sleeps: if status is still running and no cancel was requested,
emit the browser_action ping and, when frame rendering and upload
succeed, a browser_frame event, then sleep again; otherwise the loop
exits. -/
def hbBeatStep (env : Env) (s : SysState) : SysState :=
  if s.job.status = .running && !s.job.cancel_event then
    let k := s.hbStep + 1
    let j := pushEvent s.job (.browser_action ("Working... step " ++ toString k))
    let j :=
      match env.hbFrame k with
      | some url => pushEvent j (.browser_frame url)
      | none => j
    { s with job := j, hbStep := k }
  else
    { s with hbAlive := false }

/-- The agent.run() call returns or raises (lines 146-148 and
169-175).  On success the Runner immediately calls hb.cancel() — the
heartbeat can then never run another body — and suspends at await hb.
On an exception the except block runs atomically (it leaves the
heartbeat task alive; the loop exits on its own at the next wake-up
since status is no longer running). -/
def agentReturnStep (env : Env) (s : SysState) : SysState :=
  match env.runResult s.job.req.task s.job.req.model with
  | .ok t => { s with pc := .awaitingHb t, hbAlive := false }
  | .error msg => { s with job := errorBody s.job msg, pc := .done }

/-- Completion block after await hb (lines 154-168): extract the links
from result_text or "", set result, best-effort emit a final
browser_frame, set status completed, stamp completed_at, emit
browser_done. -/
def hbJoinStep (env : Env) (result_text : Option String) (s : SysState) : SysState :=
  let links := extract_links (result_text.getD "")
  let r : JobResult := { summary := result_text, links := some links }
  let j := { s.job with result := some r }
  let j :=
    match env.finalFrame with
    | some url => pushEvent j (.browser_frame url)
    | none => j
  let j := { j with status := .completed, completed_at := true }
  let j := pushEvent j (.browser_done r)
  { s with job := j, pc := .done }

/-- Body of the cancel_job handler once the job is found (lines
232-236), atomic (no suspension point inside): set the cancel flag,
status cancelled, stamp completed_at, emit browser_error and a
browser_done carrying the existing result or the fallback summary
(job.result or in Python: the result dict, when set, always has a
summary key and is truthy). -/
def cancelBody (j : Job) : Job :=
  let j := { j with cancel_event := true, status := .cancelled, completed_at := true }
  let j := pushEvent j (.browser_error "Cancelled by user")
  pushEvent j (.browser_done (j.result.getD { summary := some "Cancelled" }))

/-- The schedulable atomic steps: the Runner reaching its next
suspension point, one heartbeat wake-up, and one external cancel
request. -/
inductive Label
  | runnerStart
  | hbBeat
  | agentReturn
  | hbJoin
  | cancel
  deriving DecidableEq, Repr

/-- Guarded small-step function: none when the step is not enabled in
the current state. -/
def stepFn (env : Env) (l : Label) (s : SysState) : Option SysState :=
  match l with
  | .runnerStart =>
    match s.pc with
    | .start => some (runnerStartStep env s)
    | _ => none
  | .hbBeat =>
    if s.hbAlive then some (hbBeatStep env s) else none
  | .agentReturn =>
    match s.pc with
    | .awaitingAgent => some (agentReturnStep env s)
    | _ => none
  | .hbJoin =>
    match s.pc with
    | .awaitingHb t => some (hbJoinStep env t s)
    | _ => none
  | .cancel => some { s with job := cancelBody s.job }

/-- Total run of a schedule: disabled labels leave the state unchanged
(the scheduler can not fire them). -/
def runLabels (env : Env) (tr : List Label) (s : SysState) : SysState :=
  tr.foldl (fun s l => (stepFn env l s).getD s) s

/-- Strict run of a schedule: fails when some label is not enabled, so
a some result certifies a genuinely possible interleaving. -/
def runLabelsOpt (env : Env) (tr : List Label) (s : SysState) : Option SysState :=
  tr.foldlM (fun s l => stepFn env l s) s

/- ------------------------------------------------------------------
   HTTP surface: registry and handlers.
   ------------------------------------------------------------------ -/

/-- JobManager (src/main.py lines 74-88): the process-wide id to job
mapping.  uuid4 is abstracted to a counter-backed fresh id. -/
structure JobManager where
  jobs : List (String × Job)
  next_id : Nat := 0
  deriving Repr

/-- JobManager.get as a total lookup (the KeyError branch becomes
none). -/
def JobManager.find (m : JobManager) (job_id : String) : Option Job :=
  (m.jobs.find? (fun p => p.1 = job_id)).map Prod.snd

/-- Fresh id for the next created job. -/
def freshId (m : JobManager) : String :=
  "job-" ++ toString m.next_id

/-- Replace the record stored under the given id. -/
def updateJob (m : JobManager) (job_id : String) (j : Job) : JobManager :=
  { m with jobs := m.jobs.map (fun p => if p.1 = job_id then (p.1, j) else p) }

/-- The JobStatusResponse snapshot (lines 53-58); started_at abstracted
away with the timestamps. -/
structure JobStatusResponse where
  id : String
  status : Status
  completed_at : Bool
  result : Option JobResult
  deriving DecidableEq, Repr

/-- Snapshot of the current job fields, as built at lines 182-187 and
197-202. -/
def snapshot (j : Job) : JobStatusResponse :=
  { id := j.id, status := j.status, completed_at := j.completed_at, result := j.result }

/-- Acknowledgement returned by cancel_job. -/
structure Ack where
  ok : Bool
  deriving DecidableEq, Repr

/-- POST /jobs (lines 178-188): create the job, schedule the Runner as
a detached task (the returned SysState, at pc start, with no awaited
part of it executed), and return the immediate snapshot. -/
def start_job (m : JobManager) (req : StartJobRequest) :
    JobManager × JobStatusResponse × SysState :=
  let job_id := freshId m
  let job := mkJob job_id req
  let m' : JobManager := { jobs := m.jobs ++ [(job_id, job)], next_id := m.next_id + 1 }
  (m', snapshot job, { job := job, pc := .start, hbAlive := false, hbStep := 0 })

/-- GET /jobs/id (lines 191-203): 404 on unknown id, else the
snapshot; no state is modified. -/
def get_job_status (m : JobManager) (job_id : String) : Except Nat JobStatusResponse :=
  match m.find job_id with
  | none => .error 404
  | some j => .ok (snapshot j)

/-- GET /jobs/id/events (lines 217-223): 404 on unknown id, else an
EventSourceResponse draining the queue of the job; modelled by the
queue contents handed to the stream; no state is modified. -/
def stream_job_events (m : JobManager) (job_id : String) : Except Nat (List Event) :=
  match m.find job_id with
  | none => .error 404
  | some j => .ok j.events_queue

/-- POST /jobs/id/cancel (lines 226-237): 404 on unknown id (state
unchanged), else run the cancel body on the stored job and acknowledge
with ok true. -/
def cancel_job (m : JobManager) (job_id : String) : JobManager × Except Nat Ack :=
  match m.find job_id with
  | none => (m, .error 404)
  | some j => (updateJob m job_id (cancelBody j), .ok { ok := true })

/- ------------------------------------------------------------------
   Derived notions used by the claims.
   ------------------------------------------------------------------ -/

/-- Forward rank of the lifecycle: pending before running before the
terminal states. -/
def rank : Status → Nat
  | .pending => 0
  | .running => 1
  | _ => 2

/-- Terminal statuses: completed, error, cancelled. -/
def terminal : Status → Bool
  | .completed => true
  | .error => true
  | .cancelled => true
  | _ => false

/-- Recognizer of the terminal browser_done event. -/
def isDone : Event → Bool
  | .browser_done _ => true
  | _ => false

/-- Number of browser_done events pushed so far. -/
def doneCount : List Event → Nat
  | [] => 0
  | e :: l => (if isDone e then 1 else 0) + doneCount l

/-- True when the last pushed event is a browser_done. -/
def lastIsDone (evs : List Event) : Bool :=
  (evs.getLast?.map isDone).getD false

/-- Replace the request stored in a state (only the never-written req
field differs). -/
def setReq (r : StartJobRequest) (s : SysState) : SysState :=
  { s with job := { s.job with req := r } }

/-- Reachability invariant of cancel-free executions, tying the Runner
program counter to the job fields: before the Runner runs the job is
pending with nothing emitted; while the agent call is in flight the job
is running with no result and no terminal event; after the Runner
returns the status is terminal, the result is set, and the event queue
ends in its unique browser_done. -/
def Inv (s : SysState) : Prop :=
  (s.pc = .start →
    s.job.status = .pending ∧ s.job.result = none ∧
    doneCount s.job.events_queue = 0 ∧ s.hbAlive = false) ∧
  (s.pc = .awaitingAgent →
    s.job.status = .running ∧ s.job.result = none ∧
    doneCount s.job.events_queue = 0) ∧
  (∀ t, s.pc = .awaitingHb t →
    s.job.status = .running ∧ s.job.result = none ∧
    doneCount s.job.events_queue = 0 ∧ s.hbAlive = false) ∧
  (s.pc = .done →
    terminal s.job.status = true ∧ s.job.result.isSome = true ∧
    doneCount s.job.events_queue = 1 ∧ lastIsDone s.job.events_queue = true)

/-- Sample request used to evaluate the theorems on concrete inputs. -/
def reqSample : StartJobRequest := { task := "t" }

/-- Sample request agreeing with reqSample on task and model but
differing in domains and max_steps. -/
def reqSampleB : StartJobRequest :=
  { task := "t", domains := some ["a.com"], max_steps := some 5 }

/-- Environment in which the browser_use import failed. -/
def envNoAgent : Env :=
  { agentAvailable := false, constructFail := fun _ _ => none,
    runResult := fun _ _ => Except.ok none, hbFrame := fun _ => none,
    finalFrame := none }

/-- Environment in which the agent is available, construction succeeds,
and agent.run() returns the text "hello"; no frames are produced. -/
def envOk : Env :=
  { agentAvailable := true, constructFail := fun _ _ => none,
    runResult := fun _ _ => Except.ok (some "hello"), hbFrame := fun _ => none,
    finalFrame := none }

/-- Environment in which constructing the llm or agent raises an
exception with message "boom". -/
def envCtorFail : Env :=
  { agentAvailable := true, constructFail := fun _ _ => some "boom",
    runResult := fun _ _ => Except.ok none, hbFrame := fun _ => none,
    finalFrame := none }

/-- Environment in which agent.run() raises an exception with message
"crash". -/
def envRunFail : Env :=
  { agentAvailable := true, constructFail := fun _ _ => none,
    runResult := fun _ _ => Except.error "crash", hbFrame := fun _ => none,
    finalFrame := none }

/-- Sample freshly created job. -/
def jSample : Job := mkJob "j0" reqSample

/-- Sample registry holding the single pending job jSample. -/
def mSample : JobManager := { jobs := [("j0", jSample)], next_id := 1 }

/-- Empty registry. -/
def mEmpty : JobManager := { jobs := [], next_id := 0 }

theorem doneCount_append (a b : List Event) :
    doneCount (a ++ b) = doneCount a + doneCount b := by
  induction a with
  | nil => simp [doneCount]
  | cons e l ih => simp [doneCount, ih, Nat.add_assoc]

theorem lastIsDone_append_cons (a : List Event) (e : Event) (b : List Event) :
    lastIsDone (a ++ e :: b) = lastIsDone (e :: b) := by
  unfold lastIsDone
  rw [List.getLast?_append_cons]

theorem Inv_mk_done (s : SysState) (hpc : s.pc = RunnerPc.done)
    (h1 : terminal s.job.status = true) (h2 : s.job.result.isSome = true)
    (h3 : doneCount s.job.events_queue = 1) (h4 : lastIsDone s.job.events_queue = true) :
    Inv s := by
  refine ⟨fun hp => ?_, fun hp => ?_, fun t hp => ?_, fun _ => ⟨h1, h2, h3, h4⟩⟩ <;>
    rw [hpc] at hp <;> exact RunnerPc.noConfusion hp

theorem Inv_mk_awaitingAgent (s : SysState) (hpc : s.pc = RunnerPc.awaitingAgent)
    (h1 : s.job.status = .running) (h2 : s.job.result = none)
    (h3 : doneCount s.job.events_queue = 0) :
    Inv s := by
  refine ⟨fun hp => ?_, fun _ => ⟨h1, h2, h3⟩, fun t hp => ?_, fun hp => ?_⟩ <;>
    rw [hpc] at hp <;> exact RunnerPc.noConfusion hp

theorem Inv_mk_awaitingHb (s : SysState) (t0 : Option String)
    (hpc : s.pc = RunnerPc.awaitingHb t0)
    (h1 : s.job.status = .running) (h2 : s.job.result = none)
    (h3 : doneCount s.job.events_queue = 0) (h4 : s.hbAlive = false) :
    Inv s := by
  refine ⟨fun hp => ?_, fun hp => ?_, fun t _ => ⟨h1, h2, h3, h4⟩, fun hp => ?_⟩ <;>
    rw [hpc] at hp <;> exact RunnerPc.noConfusion hp

theorem runnerStart_preserve (env : Env) (s : SysState)
    (h : Inv s) (hpc : s.pc = RunnerPc.start) :
    Inv (runnerStartStep env s) ∧
    rank s.job.status ≤ rank (runnerStartStep env s).job.status ∧
    (terminal s.job.status = true → (runnerStartStep env s).job.status = s.job.status) := by
  obtain ⟨hst, hres, hdc, hhb⟩ := h.1 hpc
  refine ⟨?_, ?_, ?_⟩
  case refine_2 =>
    unfold runnerStartStep
    cases hA : env.agentAvailable with
    | false => simp [unavailableBody, startedJob, pushEvent, hst, rank]
    | true =>
      cases hC : env.constructFail s.job.req.task s.job.req.model with
      | some msg => simp [hC, errorBody, startedJob, pushEvent, hst, rank]
      | none => simp [hC, startedJob, pushEvent, hst, rank]
  case refine_3 => intro ht; rw [hst] at ht; exact absurd ht (by simp [terminal])
  unfold runnerStartStep
  cases hA : env.agentAvailable with
  | false =>
    refine Inv_mk_done _ (by simp) ?_ ?_ ?_ ?_ <;>
      simp [unavailableBody, startedJob, pushEvent, doneCount_append, hdc, doneCount,
        lastIsDone_append_cons, lastIsDone, isDone, terminal]
  | true =>
    cases hC : env.constructFail s.job.req.task s.job.req.model with
    | some msg =>
      refine Inv_mk_done _ (by simp [hC]) ?_ ?_ ?_ ?_ <;>
        simp [hC, errorBody, startedJob, pushEvent, doneCount_append, hdc, doneCount,
          lastIsDone_append_cons, lastIsDone, isDone, terminal]
    | none =>
      refine Inv_mk_awaitingAgent _ (by simp [hC]) ?_ ?_ ?_ <;>
        simp [hC, startedJob, pushEvent, doneCount_append, hdc, doneCount, isDone, hres, hst]

theorem hbBeatStep_pc (env : Env) (s : SysState) : (hbBeatStep env s).pc = s.pc := by
  unfold hbBeatStep; split <;> rfl

theorem hbBeatStep_status (env : Env) (s : SysState) :
    (hbBeatStep env s).job.status = s.job.status := by
  unfold hbBeatStep; split
  · cases hF : env.hbFrame (s.hbStep + 1) <;> simp [hF, pushEvent]
  · rfl

theorem hbBeatStep_result (env : Env) (s : SysState) :
    (hbBeatStep env s).job.result = s.job.result := by
  unfold hbBeatStep; split
  · cases hF : env.hbFrame (s.hbStep + 1) <;> simp [hF, pushEvent]
  · rfl

theorem hbBeatStep_doneCount (env : Env) (s : SysState) :
    doneCount (hbBeatStep env s).job.events_queue = doneCount s.job.events_queue := by
  unfold hbBeatStep; split
  · cases hF : env.hbFrame (s.hbStep + 1) <;>
      simp [hF, pushEvent, doneCount_append, doneCount, isDone]
  · rfl

theorem hbBeatStep_hbAlive (env : Env) (s : SysState) (h4 : s.hbAlive = false) :
    (hbBeatStep env s).hbAlive = false := by
  unfold hbBeatStep; split
  · exact h4
  · rfl

theorem hbBeatStep_frozen (env : Env) (s : SysState) (hterm : terminal s.job.status = true) :
    (hbBeatStep env s).job = s.job := by
  unfold hbBeatStep
  split
  · rename_i hcond
    simp only [Bool.and_eq_true, decide_eq_true_eq] at hcond
    rw [hcond.1] at hterm
    exact absurd hterm (by simp [terminal])
  · rfl

theorem hbBeat_preserve (env : Env) (s : SysState) (h : Inv s) :
    Inv (hbBeatStep env s) ∧
    rank s.job.status ≤ rank (hbBeatStep env s).job.status ∧
    (terminal s.job.status = true → (hbBeatStep env s).job.status = s.job.status) := by
  refine ⟨⟨?_, ?_, fun t hp => ?_, ?_⟩, ?_, ?_⟩
  · intro hp; rw [hbBeatStep_pc] at hp
    obtain ⟨h1, h2, h3, h4⟩ := h.1 hp
    exact ⟨by rw [hbBeatStep_status]; exact h1, by rw [hbBeatStep_result]; exact h2,
      by rw [hbBeatStep_doneCount]; exact h3, hbBeatStep_hbAlive env s h4⟩
  · intro hp; rw [hbBeatStep_pc] at hp
    obtain ⟨h1, h2, h3⟩ := h.2.1 hp
    exact ⟨by rw [hbBeatStep_status]; exact h1, by rw [hbBeatStep_result]; exact h2,
      by rw [hbBeatStep_doneCount]; exact h3⟩
  · rw [hbBeatStep_pc] at hp
    obtain ⟨h1, h2, h3, h4⟩ := h.2.2.1 t hp
    exact ⟨by rw [hbBeatStep_status]; exact h1, by rw [hbBeatStep_result]; exact h2,
      by rw [hbBeatStep_doneCount]; exact h3, hbBeatStep_hbAlive env s h4⟩
  · intro hp; rw [hbBeatStep_pc] at hp
    obtain ⟨h1, h2, h3, h4⟩ := h.2.2.2 hp
    rw [hbBeatStep_frozen env s h1]
    exact ⟨h1, h2, h3, h4⟩
  · exact le_of_eq (by rw [hbBeatStep_status])
  · intro _; rw [hbBeatStep_status]

theorem agentReturn_preserve (env : Env) (s : SysState)
    (h : Inv s) (hpc : s.pc = RunnerPc.awaitingAgent) :
    Inv (agentReturnStep env s) ∧
    rank s.job.status ≤ rank (agentReturnStep env s).job.status ∧
    (terminal s.job.status = true → (agentReturnStep env s).job.status = s.job.status) := by
  obtain ⟨hst, hres, hdc⟩ := h.2.1 hpc
  refine ⟨?_, ?_, ?_⟩
  case refine_2 =>
    unfold agentReturnStep
    cases hR : env.runResult s.job.req.task s.job.req.model with
    | ok t => simp [rank]
    | error msg => simp [errorBody, pushEvent, hst, rank]
  case refine_3 => intro ht; rw [hst] at ht; exact absurd ht (by simp [terminal])
  unfold agentReturnStep
  cases hR : env.runResult s.job.req.task s.job.req.model with
  | ok t => exact Inv_mk_awaitingHb _ t rfl hst hres hdc rfl
  | error msg =>
    refine Inv_mk_done _ rfl ?_ ?_ ?_ ?_ <;>
      simp [errorBody, pushEvent, doneCount_append, hdc, doneCount,
        lastIsDone_append_cons, lastIsDone, isDone, terminal]

theorem hbJoin_preserve (env : Env) (s : SysState) (t : Option String)
    (h : Inv s) (hpc : s.pc = RunnerPc.awaitingHb t) :
    Inv (hbJoinStep env t s) ∧
    rank s.job.status ≤ rank (hbJoinStep env t s).job.status ∧
    (terminal s.job.status = true → (hbJoinStep env t s).job.status = s.job.status) := by
  obtain ⟨hst, hres, hdc, hhb⟩ := h.2.2.1 t hpc
  refine ⟨?_, ?_, ?_⟩
  case refine_2 =>
    unfold hbJoinStep
    cases env.finalFrame <;> simp [pushEvent, hst, rank]
  case refine_3 => intro ht; rw [hst] at ht; exact absurd ht (by simp [terminal])
  unfold hbJoinStep
  cases hF : env.finalFrame with
  | none =>
    refine Inv_mk_done _ (by simp [hF]) ?_ ?_ ?_ ?_ <;>
      simp [hF, pushEvent, doneCount_append, hdc, doneCount,
        lastIsDone_append_cons, lastIsDone, isDone, terminal]
  | some url =>
    refine Inv_mk_done _ (by simp [hF]) ?_ ?_ ?_ ?_ <;>
      simp [hF, pushEvent, doneCount_append, hdc, doneCount,
        lastIsDone_append_cons, lastIsDone, isDone, terminal]

theorem step_skip (env : Env) (l : Label) (s : SysState)
    (hnone : stepFn env l s = none) (h : Inv s) :
    Inv ((stepFn env l s).getD s) ∧
    rank s.job.status ≤ rank ((stepFn env l s).getD s).job.status ∧
    (terminal s.job.status = true → ((stepFn env l s).getD s).job.status = s.job.status) := by
  rw [hnone]
  exact ⟨h, le_refl _, fun _ => rfl⟩

theorem step_preserve (env : Env) (l : Label) (s : SysState)
    (hl : l ≠ Label.cancel) (h : Inv s) :
    Inv ((stepFn env l s).getD s) ∧
    rank s.job.status ≤ rank ((stepFn env l s).getD s).job.status ∧
    (terminal s.job.status = true → ((stepFn env l s).getD s).job.status = s.job.status) := by
  cases l with
  | cancel => exact absurd rfl hl
  | runnerStart =>
    cases hpc : s.pc with
    | start => simpa [stepFn, hpc] using runnerStart_preserve env s h hpc
    | awaitingAgent => exact step_skip env _ s (by simp [stepFn, hpc]) h
    | awaitingHb t => exact step_skip env _ s (by simp [stepFn, hpc]) h
    | done => exact step_skip env _ s (by simp [stepFn, hpc]) h
  | hbBeat =>
    cases hA : s.hbAlive with
    | true => simpa [stepFn, hA] using hbBeat_preserve env s h
    | false => exact step_skip env _ s (by simp [stepFn, hA]) h
  | agentReturn =>
    cases hpc : s.pc with
    | awaitingAgent => simpa [stepFn, hpc] using agentReturn_preserve env s h hpc
    | start => exact step_skip env _ s (by simp [stepFn, hpc]) h
    | awaitingHb t => exact step_skip env _ s (by simp [stepFn, hpc]) h
    | done => exact step_skip env _ s (by simp [stepFn, hpc]) h
  | hbJoin =>
    cases hpc : s.pc with
    | awaitingHb t => simpa [stepFn, hpc] using hbJoin_preserve env s t h hpc
    | start => exact step_skip env _ s (by simp [stepFn, hpc]) h
    | awaitingAgent => exact step_skip env _ s (by simp [stepFn, hpc]) h
    | done => exact step_skip env _ s (by simp [stepFn, hpc]) h

theorem runLabels_cons (env : Env) (l : Label) (tr : List Label) (s : SysState) :
    runLabels env (l :: tr) s = runLabels env tr ((stepFn env l s).getD s) := rfl

theorem runLabels_append (env : Env) (t1 t2 : List Label) (s : SysState) :
    runLabels env (t1 ++ t2) s = runLabels env t2 (runLabels env t1 s) := by
  simp [runLabels, List.foldl_append]

theorem run_preserve (env : Env) :
    ∀ (tr : List Label), Label.cancel ∉ tr → ∀ s, Inv s →
      Inv (runLabels env tr s) ∧
      rank s.job.status ≤ rank (runLabels env tr s).job.status ∧
      (terminal s.job.status = true → (runLabels env tr s).job.status = s.job.status) := by
  intro tr
  induction tr with
  | nil => exact fun _ s hs => ⟨hs, le_refl _, fun _ => rfl⟩
  | cons l tr ih =>
    intro h s hs
    have hl : l ≠ Label.cancel := fun he => h (he ▸ List.mem_cons_self l tr)
    have htr : Label.cancel ∉ tr := fun he => h (List.mem_cons_of_mem l he)
    have h1 := step_preserve env l s hl hs
    have h2 := ih htr ((stepFn env l s).getD s) h1.1
    rw [runLabels_cons]
    refine ⟨h2.1, le_trans h1.2.1 h2.2.1, fun ht => ?_⟩
    have e1 := h1.2.2 ht
    have ht2 : terminal ((stepFn env l s).getD s).job.status = true := by rw [e1]; exact ht
    rw [h2.2.2 ht2, e1]

theorem Inv_initSys (job_id : String) (req : StartJobRequest) :
    Inv (initSys job_id req) := by
  refine ⟨fun _ => ?_, fun hp => ?_, fun t hp => ?_, fun hp => ?_⟩
  · exact ⟨rfl, rfl, rfl, rfl⟩
  · exact RunnerPc.noConfusion hp
  · exact RunnerPc.noConfusion hp
  · exact RunnerPc.noConfusion hp

theorem runnerStartStep_setReq (env : Env) (s : SysState) (r : StartJobRequest)
    (ht : r.task = s.job.req.task) (hm : r.model = s.job.req.model) :
    runnerStartStep env (setReq r s) = setReq r (runnerStartStep env s) := by
  cases hA : env.agentAvailable with
  | false => simp [runnerStartStep, hA, setReq, startedJob, unavailableBody, pushEvent, ht, hm]
  | true =>
    cases hC : env.constructFail s.job.req.task s.job.req.model with
    | some msg =>
      simp [runnerStartStep, hA, setReq, startedJob, errorBody, pushEvent, ht, hm, hC]
    | none => simp [runnerStartStep, hA, setReq, startedJob, pushEvent, ht, hm, hC]

theorem hbBeatStep_setReq (env : Env) (s : SysState) (r : StartJobRequest) :
    hbBeatStep env (setReq r s) = setReq r (hbBeatStep env s) := by
  cases hcond : (decide (s.job.status = Status.running) && !s.job.cancel_event) with
  | false => simp [hbBeatStep, setReq, hcond]
  | true =>
    cases hF : env.hbFrame (s.hbStep + 1) with
    | none => simp [hbBeatStep, setReq, hcond, hF, pushEvent]
    | some url => simp [hbBeatStep, setReq, hcond, hF, pushEvent]

theorem agentReturnStep_setReq (env : Env) (s : SysState) (r : StartJobRequest)
    (ht : r.task = s.job.req.task) (hm : r.model = s.job.req.model) :
    agentReturnStep env (setReq r s) = setReq r (agentReturnStep env s) := by
  cases hR : env.runResult s.job.req.task s.job.req.model with
  | ok t => simp [agentReturnStep, setReq, errorBody, pushEvent, ht, hm, hR]
  | error msg => simp [agentReturnStep, setReq, errorBody, pushEvent, ht, hm, hR]

theorem hbJoinStep_setReq (env : Env) (t : Option String) (s : SysState)
    (r : StartJobRequest) :
    hbJoinStep env t (setReq r s) = setReq r (hbJoinStep env t s) := by
  cases hF : env.finalFrame with
  | none => simp [hbJoinStep, setReq, pushEvent, hF]
  | some url => simp [hbJoinStep, setReq, pushEvent, hF]

theorem cancelBody_setReq (j : Job) (r : StartJobRequest) :
    cancelBody { j with req := r } = { cancelBody j with req := r } := by
  simp [cancelBody, pushEvent]

theorem stepFn_runnerStart_eq (env : Env) (s : SysState) (hpc : s.pc = RunnerPc.start) :
    stepFn env Label.runnerStart s = some (runnerStartStep env s) := by
  simp [stepFn, hpc]

theorem stepFn_hbBeat_eq (env : Env) (s : SysState) (hA : s.hbAlive = true) :
    stepFn env Label.hbBeat s = some (hbBeatStep env s) := by
  simp [stepFn, hA]

theorem stepFn_agentReturn_eq (env : Env) (s : SysState)
    (hpc : s.pc = RunnerPc.awaitingAgent) :
    stepFn env Label.agentReturn s = some (agentReturnStep env s) := by
  simp [stepFn, hpc]

theorem stepFn_hbJoin_eq (env : Env) (s : SysState) (t : Option String)
    (hpc : s.pc = RunnerPc.awaitingHb t) :
    stepFn env Label.hbJoin s = some (hbJoinStep env t s) := by
  simp [stepFn, hpc]

theorem stepFn_cancel_eq (env : Env) (s : SysState) :
    stepFn env Label.cancel s = some { s with job := cancelBody s.job } := rfl

theorem stepFn_setReq (env : Env) (l : Label) (s : SysState) (r : StartJobRequest)
    (ht : r.task = s.job.req.task) (hm : r.model = s.job.req.model) :
    stepFn env l (setReq r s) = (stepFn env l s).map (setReq r) := by
  cases l with
  | runnerStart =>
    cases hpc : s.pc with
    | start =>
      rw [stepFn_runnerStart_eq env s hpc, stepFn_runnerStart_eq env (setReq r s) hpc,
        Option.map_some', runnerStartStep_setReq env s r ht hm]
    | awaitingAgent => simp [stepFn, setReq, hpc]
    | awaitingHb t => simp [stepFn, setReq, hpc]
    | done => simp [stepFn, setReq, hpc]
  | hbBeat =>
    cases hA : s.hbAlive with
    | true =>
      rw [stepFn_hbBeat_eq env s hA, stepFn_hbBeat_eq env (setReq r s) hA,
        Option.map_some', hbBeatStep_setReq env s r]
    | false => simp [stepFn, setReq, hA]
  | agentReturn =>
    cases hpc : s.pc with
    | awaitingAgent =>
      rw [stepFn_agentReturn_eq env s hpc, stepFn_agentReturn_eq env (setReq r s) hpc,
        Option.map_some', agentReturnStep_setReq env s r ht hm]
    | start => simp [stepFn, setReq, hpc]
    | awaitingHb t => simp [stepFn, setReq, hpc]
    | done => simp [stepFn, setReq, hpc]
  | hbJoin =>
    cases hpc : s.pc with
    | awaitingHb t =>
      rw [stepFn_hbJoin_eq env s t hpc, stepFn_hbJoin_eq env (setReq r s) t hpc,
        Option.map_some', hbJoinStep_setReq env t s r]
    | start => simp [stepFn, setReq, hpc]
    | awaitingAgent => simp [stepFn, setReq, hpc]
    | done => simp [stepFn, setReq, hpc]
  | cancel =>
    rw [stepFn_cancel_eq, stepFn_cancel_eq, Option.map_some']
    refine congrArg some ?_
    show SysState.mk (cancelBody { s.job with req := r }) s.pc s.hbAlive s.hbStep =
      setReq r { s with job := cancelBody s.job }
    rw [cancelBody_setReq]
    rfl

theorem runnerStartStep_req (env : Env) (s : SysState) :
    (runnerStartStep env s).job.req = s.job.req := by
  cases hA : env.agentAvailable with
  | false => simp [runnerStartStep, hA, startedJob, unavailableBody, pushEvent]
  | true =>
    cases hC : env.constructFail s.job.req.task s.job.req.model with
    | some msg => simp [runnerStartStep, hA, hC, startedJob, errorBody, pushEvent]
    | none => simp [runnerStartStep, hA, hC, startedJob, pushEvent]

theorem hbBeatStep_req (env : Env) (s : SysState) :
    (hbBeatStep env s).job.req = s.job.req := by
  unfold hbBeatStep; split
  · cases hF : env.hbFrame (s.hbStep + 1) <;> simp [hF, pushEvent]
  · rfl

theorem agentReturnStep_req (env : Env) (s : SysState) :
    (agentReturnStep env s).job.req = s.job.req := by
  cases hR : env.runResult s.job.req.task s.job.req.model with
  | ok t => simp [agentReturnStep, hR]
  | error msg => simp [agentReturnStep, hR, errorBody, pushEvent]

theorem hbJoinStep_req (env : Env) (t : Option String) (s : SysState) :
    (hbJoinStep env t s).job.req = s.job.req := by
  cases hF : env.finalFrame with
  | none => simp [hbJoinStep, hF, pushEvent]
  | some url => simp [hbJoinStep, hF, pushEvent]

theorem stepFn_req (env : Env) (l : Label) (s : SysState) :
    ∀ s', stepFn env l s = some s' → s'.job.req = s.job.req := by
  intro s' hs
  cases l with
  | runnerStart =>
    cases hpc : s.pc <;> rw [stepFn, hpc] at hs <;> try exact Option.noConfusion hs
    rw [← Option.some_inj.mp hs]
    exact runnerStartStep_req env s
  | hbBeat =>
    cases hA : s.hbAlive <;> rw [stepFn] at hs <;> rw [hA] at hs <;> simp at hs
    rw [← hs]
    exact hbBeatStep_req env s
  | agentReturn =>
    cases hpc : s.pc <;> rw [stepFn, hpc] at hs <;> try exact Option.noConfusion hs
    rw [← Option.some_inj.mp hs]
    exact agentReturnStep_req env s
  | hbJoin =>
    cases hpc : s.pc <;> rw [stepFn, hpc] at hs <;> try exact Option.noConfusion hs
    rw [← Option.some_inj.mp hs]
    exact hbJoinStep_req env _ s
  | cancel =>
    rw [stepFn] at hs
    rw [← Option.some_inj.mp hs]
    simp [cancelBody, pushEvent]

theorem runLabels_setReq (env : Env) (tr : List Label) :
    ∀ (s : SysState) (r : StartJobRequest),
      r.task = s.job.req.task → r.model = s.job.req.model →
      runLabels env tr (setReq r s) = setReq r (runLabels env tr s) := by
  induction tr with
  | nil => intro s r _ _; rfl
  | cons l tr ih =>
    intro s r ht hm
    rw [runLabels_cons, runLabels_cons, stepFn_setReq env l s r ht hm]
    cases hstep : stepFn env l s with
    | none =>
      simp only [Option.map_none', Option.getD_none]
      exact ih s r ht hm
    | some s' =>
      simp only [Option.map_some', Option.getD_some]
      have hreq : s'.job.req = s.job.req := stepFn_req env l s s' hstep
      exact ih s' r (by rw [hreq]; exact ht) (by rw [hreq]; exact hm)

theorem stepFn_done_none (env : Env) (l : Label) (s : SysState)
    (hpc : s.pc = RunnerPc.done) (hhb : s.hbAlive = false) (hl : l ≠ Label.cancel) :
    stepFn env l s = none := by
  cases l with
  | cancel => exact absurd rfl hl
  | runnerStart => simp [stepFn, hpc]
  | hbBeat => simp [stepFn, hhb]
  | agentReturn => simp [stepFn, hpc]
  | hbJoin => simp [stepFn, hpc]

theorem runLabels_frozen (env : Env) (tr : List Label) (h : Label.cancel ∉ tr) :
    ∀ s : SysState, s.pc = RunnerPc.done → s.hbAlive = false →
      runLabels env tr s = s := by
  induction tr with
  | nil => intro s _ _; rfl
  | cons l tr ih =>
    intro s hpc hhb
    have hl : l ≠ Label.cancel := fun he => h (he ▸ List.mem_cons_self l tr)
    have htr : Label.cancel ∉ tr := fun he => h (List.mem_cons_of_mem l he)
    rw [runLabels_cons, stepFn_done_none env l s hpc hhb hl]
    exact ih htr s hpc hhb

theorem find?_map_update (l : List (String × Job)) (job_id : String) (j' : Job)
    (h : (l.find? (fun p => p.1 = job_id)).isSome = true) :
    ((l.map (fun p => if p.1 = job_id then (p.1, j') else p)).find?
        (fun p => p.1 = job_id)).map Prod.snd = some j' := by
  induction l with
  | nil => simp at h
  | cons x xs ih =>
    by_cases hx : x.1 = job_id
    · simp [List.find?_cons, hx]
    · simp only [List.find?_cons, hx, decide_False] at h
      simp only [List.map_cons, List.find?_cons, hx, ite_false, decide_False]
      exact ih h

theorem find_updateJob (m : JobManager) (job_id : String) (j' : Job)
    (h : (m.find job_id).isSome = true) :
    (updateJob m job_id j').find job_id = some j' := by
  have h2 : (m.jobs.find? (fun p => p.1 = job_id)).isSome = true := by
    unfold JobManager.find at h
    cases hf : m.jobs.find? (fun p => p.1 = job_id) with
    | none => rw [hf] at h; simp at h
    | some p => simp [hf]
  exact find?_map_update m.jobs job_id j' h2

/- ------------------------------------------------------------------
   Claims.
   ------------------------------------------------------------------ -/

/-- Claim C4: link extraction collects every maximal regex match
https?://[^\s)]+ in order of first appearance with duplicates
preserved; on the spec example it returns exactly the three listed
links, with the trailing parenthesis excluded. -/
theorem extract_links_spec_example :
    extract_links "See https://a.com/x and (https://b.org/y) also https://a.com/x" =
      ["https://a.com/x", "https://b.org/y", "https://a.com/x"] := by decide

/-- Claim C9: for every valid creation request, start_job creates the
job, schedules the Runner as a detached task still at its initial
program point, and returns immediately a pending snapshot with no
result and no completion timestamp, before any terminal state is
possible. -/
theorem start_job_returns_pending (m : JobManager) (req : StartJobRequest) :
    (start_job m req).2.1.status = Status.pending ∧
    (start_job m req).2.1.result = none ∧
    (start_job m req).2.1.completed_at = false ∧
    (start_job m req).2.2.pc = RunnerPc.start ∧
    (start_job m req).2.2.job.status = Status.pending ∧
    (start_job m req).1.jobs = m.jobs ++ [(freshId m, mkJob (freshId m) req)] :=
  ⟨rfl, rfl, rfl, rfl, rfl, rfl⟩

/-- Claim C8: for an id not present in the registry, status lookup,
opening the event stream, and cancel all fail with the 404 NotFound
client error, and none of them modifies any state (cancel returns the
registry unchanged; the other two are reads). -/
theorem unknown_id_not_found (m : JobManager) (job_id : String)
    (h : m.find job_id = none) :
    get_job_status m job_id = Except.error 404 ∧
    stream_job_events m job_id = Except.error 404 ∧
    cancel_job m job_id = (m, Except.error 404) := by
  refine ⟨?_, ?_, ?_⟩ <;> simp [get_job_status, stream_job_events, cancel_job, h]

/-- Claim C8 witness: the empty registry knows no id "nope". -/
theorem unknown_id_not_found_witness :
    mEmpty.find "nope" = none ∧
    (get_job_status mEmpty "nope" = Except.error 404 ∧
     stream_job_events mEmpty "nope" = Except.error 404 ∧
     cancel_job mEmpty "nope" = (mEmpty, Except.error 404)) :=
  ⟨rfl, unknown_id_not_found mEmpty "nope" rfl⟩

/-- Claim C7: cancelling a job found in pending or running state sets
status cancelled, stamps completed_at, appends the browser_error
"Cancelled by user" and a browser_done carrying the existing result or
the fallback summary "Cancelled" (also when no prior event exists, the
queue being arbitrary here), and acknowledges with ok true. -/
theorem cancel_job_pending_running (m : JobManager) (job_id : String) (j : Job)
    (hfind : m.find job_id = some j)
    (_hst : j.status = Status.pending ∨ j.status = Status.running) :
    (cancel_job m job_id).2 = Except.ok { ok := true } ∧
    (cancel_job m job_id).1.find job_id = some (cancelBody j) ∧
    (cancelBody j).status = Status.cancelled ∧
    (cancelBody j).completed_at = true ∧
    (cancelBody j).events_queue = j.events_queue ++
      [Event.browser_error "Cancelled by user",
       Event.browser_done (j.result.getD { summary := some "Cancelled" })] := by
  have hc : cancel_job m job_id =
      (updateJob m job_id (cancelBody j), Except.ok { ok := true }) := by
    simp [cancel_job, hfind]
  refine ⟨by rw [hc], ?_, rfl, rfl, by simp [cancelBody, pushEvent]⟩
  rw [hc]
  exact find_updateJob m job_id (cancelBody j) (by rw [hfind]; rfl)

/-- Claim C7 witness: cancelling the sample pending job. -/
theorem cancel_job_pending_running_witness :
    (mSample.find "j0" = some jSample ∧
     (jSample.status = Status.pending ∨ jSample.status = Status.running)) ∧
    ((cancel_job mSample "j0").2 = Except.ok { ok := true } ∧
     (cancel_job mSample "j0").1.find "j0" = some (cancelBody jSample) ∧
     (cancelBody jSample).status = Status.cancelled ∧
     (cancelBody jSample).completed_at = true ∧
     (cancelBody jSample).events_queue = jSample.events_queue ++
       [Event.browser_error "Cancelled by user",
        Event.browser_done (jSample.result.getD { summary := some "Cancelled" })]) :=
  ⟨⟨by decide, Or.inl (by decide)⟩,
    cancel_job_pending_running mSample "j0" jSample (by decide) (Or.inl (by decide))⟩

/-- Claim C5: when the agent collaborator is not loadable, job creation
still succeeds with a pending snapshot; the Runner then moves the job
to error with the fixed unavailability diagnostic in result.summary and
the event channel holds exactly browser_started, browser_error,
browser_done; afterwards the state never changes again in any
cancel-free schedule. -/
theorem agent_unavailable_degraded (env : Env) (m : JobManager)
    (req : StartJobRequest) (job_id : String)
    (hA : env.agentAvailable = false) :
    (start_job m req).2.1.status = Status.pending ∧
    (runLabels env [Label.runnerStart] (initSys job_id req)).job.status = Status.error ∧
    (runLabels env [Label.runnerStart] (initSys job_id req)).job.result =
      some { summary := some "browser_use not installed on server" } ∧
    (runLabels env [Label.runnerStart] (initSys job_id req)).job.events_queue =
      [Event.browser_started job_id req.task,
       Event.browser_error "browser_use not installed",
       Event.browser_done { summary := some "browser_use not installed on server" }] ∧
    (∀ tr, Label.cancel ∉ tr →
      runLabels env (Label.runnerStart :: tr) (initSys job_id req) =
        runLabels env [Label.runnerStart] (initSys job_id req)) := by
  have hs1 : runLabels env [Label.runnerStart] (initSys job_id req) =
      runnerStartStep env (initSys job_id req) := by
    rw [runLabels_cons, stepFn_runnerStart_eq env _ rfl]
    rfl
  have hstep : runnerStartStep env (initSys job_id req) =
      { job := unavailableBody (startedJob (mkJob job_id req)), pc := RunnerPc.done,
        hbAlive := false, hbStep := 0 } := by
    simp [runnerStartStep, hA, initSys]
  refine ⟨rfl, ?_, ?_, ?_, ?_⟩
  · rw [hs1, hstep]; rfl
  · rw [hs1, hstep]; rfl
  · rw [hs1, hstep]; simp [unavailableBody, startedJob, pushEvent, mkJob]
  · intro tr htr
    have hcons : runLabels env (Label.runnerStart :: tr) (initSys job_id req) =
        runLabels env tr (runLabels env [Label.runnerStart] (initSys job_id req)) := rfl
    rw [hcons, hs1, hstep]
    exact runLabels_frozen env tr htr _ rfl rfl

/-- Claim C5 witness: the degraded scenario evaluated in the concrete
environment without browser_use. -/
theorem agent_unavailable_degraded_witness :
    envNoAgent.agentAvailable = false ∧
    ((start_job mEmpty reqSample).2.1.status = Status.pending ∧
     (runLabels envNoAgent [Label.runnerStart] (initSys "j0" reqSample)).job.status =
       Status.error ∧
     (runLabels envNoAgent [Label.runnerStart] (initSys "j0" reqSample)).job.result =
       some { summary := some "browser_use not installed on server" } ∧
     (runLabels envNoAgent [Label.runnerStart] (initSys "j0" reqSample)).job.events_queue =
       [Event.browser_started "j0" reqSample.task,
        Event.browser_error "browser_use not installed",
        Event.browser_done { summary := some "browser_use not installed on server" }] ∧
     (∀ tr, Label.cancel ∉ tr →
       runLabels envNoAgent (Label.runnerStart :: tr) (initSys "j0" reqSample) =
         runLabels envNoAgent [Label.runnerStart] (initSys "j0" reqSample))) :=
  ⟨rfl, agent_unavailable_degraded envNoAgent mEmpty reqSample "j0" rfl⟩

/-- Claim C6: any failure raised during agent construction or
invocation with message msg is captured by the Runner, which reaches
its normal return point (the failure never propagates out), sets status
error, sets result to the Error: message, and pushes browser_error msg
followed by browser_done carrying that result. -/
theorem run_agent_job_failure_captured (env : Env) (job_id : String)
    (req : StartJobRequest) (msg : String)
    (hA : env.agentAvailable = true)
    (hfail : env.constructFail req.task req.model = some msg ∨
      (env.constructFail req.task req.model = none ∧
       env.runResult req.task req.model = Except.error msg)) :
    (runLabels env [Label.runnerStart, Label.agentReturn] (initSys job_id req)).pc =
      RunnerPc.done ∧
    (runLabels env [Label.runnerStart, Label.agentReturn] (initSys job_id req)).job.status =
      Status.error ∧
    (runLabels env [Label.runnerStart, Label.agentReturn] (initSys job_id req)).job.result =
      some { summary := some ("Error: " ++ msg) } ∧
    (runLabels env [Label.runnerStart, Label.agentReturn] (initSys job_id req)).job.events_queue =
      [Event.browser_started job_id req.task, Event.browser_error msg,
       Event.browser_done { summary := some ("Error: " ++ msg) }] := by
  rcases hfail with hC | ⟨hC, hR⟩
  · have hs1 : runnerStartStep env (initSys job_id req) =
        { job := errorBody (startedJob (mkJob job_id req)) msg, pc := RunnerPc.done,
          hbAlive := false, hbStep := 0 } := by
      simp [runnerStartStep, hA, hC, initSys, mkJob]
    have hs : runLabels env [Label.runnerStart, Label.agentReturn] (initSys job_id req) =
        { job := errorBody (startedJob (mkJob job_id req)) msg, pc := RunnerPc.done,
          hbAlive := false, hbStep := 0 } := by
      rw [runLabels_cons, stepFn_runnerStart_eq env _ rfl, Option.getD_some, hs1,
        runLabels_cons, stepFn_done_none env Label.agentReturn _ rfl rfl (by simp)]
      rfl
    refine ⟨by rw [hs], by rw [hs]; rfl, by rw [hs]; rfl, ?_⟩
    rw [hs]
    simp [errorBody, startedJob, pushEvent, mkJob]
  · have hs1 : runnerStartStep env (initSys job_id req) =
        { job := startedJob (mkJob job_id req), pc := RunnerPc.awaitingAgent,
          hbAlive := true, hbStep := 0 } := by
      simp [runnerStartStep, hA, hC, initSys, mkJob]
    have hs2 : agentReturnStep env
        { job := startedJob (mkJob job_id req), pc := RunnerPc.awaitingAgent,
          hbAlive := true, hbStep := 0 } =
        { job := errorBody (startedJob (mkJob job_id req)) msg, pc := RunnerPc.done,
          hbAlive := true, hbStep := 0 } := by
      simp [agentReturnStep, startedJob, mkJob, pushEvent, hR, errorBody]
    have hs : runLabels env [Label.runnerStart, Label.agentReturn] (initSys job_id req) =
        { job := errorBody (startedJob (mkJob job_id req)) msg, pc := RunnerPc.done,
          hbAlive := true, hbStep := 0 } := by
      rw [runLabels_cons, stepFn_runnerStart_eq env _ rfl, Option.getD_some, hs1,
        runLabels_cons, stepFn_agentReturn_eq env _ rfl, Option.getD_some, hs2]
      rfl
    refine ⟨by rw [hs], by rw [hs]; rfl, by rw [hs]; rfl, ?_⟩
    rw [hs]
    simp [errorBody, startedJob, pushEvent, mkJob]

/-- Claim C6 witness: the construction failure "boom" and the
invocation failure "crash", each evaluated concretely. -/
theorem run_agent_job_failure_captured_witness :
    (envCtorFail.agentAvailable = true ∧
     envCtorFail.constructFail reqSample.task reqSample.model = some "boom" ∧
     (runLabels envCtorFail [Label.runnerStart, Label.agentReturn] (initSys "j0" reqSample)).job.status =
       Status.error ∧
     (runLabels envCtorFail [Label.runnerStart, Label.agentReturn] (initSys "j0" reqSample)).job.result =
       some { summary := some ("Error: " ++ "boom") }) ∧
    (envRunFail.agentAvailable = true ∧
     envRunFail.runResult reqSample.task reqSample.model = Except.error "crash" ∧
     (runLabels envRunFail [Label.runnerStart, Label.agentReturn] (initSys "j0" reqSample)).job.status =
       Status.error ∧
     (runLabels envRunFail [Label.runnerStart, Label.agentReturn] (initSys "j0" reqSample)).job.events_queue =
       [Event.browser_started "j0" reqSample.task, Event.browser_error "crash",
        Event.browser_done { summary := some ("Error: " ++ "crash") }]) :=
  ⟨⟨rfl, rfl,
    (run_agent_job_failure_captured envCtorFail "j0" reqSample "boom" rfl
      (Or.inl rfl)).2.1,
    (run_agent_job_failure_captured envCtorFail "j0" reqSample "boom" rfl
      (Or.inl rfl)).2.2.1⟩,
   ⟨rfl, rfl,
    (run_agent_job_failure_captured envRunFail "j0" reqSample "crash" rfl
      (Or.inr ⟨rfl, rfl⟩)).2.1,
    (run_agent_job_failure_captured envRunFail "j0" reqSample "crash" rfl
      (Or.inr ⟨rfl, rfl⟩)).2.2.2⟩⟩

/-- Claim C10: the optional request fields domains and max_steps are
never read by the Runner: two requests agreeing on task and model
produce, under every environment and schedule, states identical except
for the stored request, in particular the same status evolution, the
same result and the same emitted event sequence. -/
theorem domains_max_steps_no_effect (env : Env) (job_id : String) (tr : List Label)
    (req1 req2 : StartJobRequest)
    (ht : req1.task = req2.task) (hm : req1.model = req2.model) :
    runLabels env tr (initSys job_id req2) =
      setReq req2 (runLabels env tr (initSys job_id req1)) ∧
    (runLabels env tr (initSys job_id req2)).job.status =
      (runLabels env tr (initSys job_id req1)).job.status ∧
    (runLabels env tr (initSys job_id req2)).job.result =
      (runLabels env tr (initSys job_id req1)).job.result ∧
    (runLabels env tr (initSys job_id req2)).job.events_queue =
      (runLabels env tr (initSys job_id req1)).job.events_queue ∧
    (runLabels env tr (initSys job_id req2)).job.completed_at =
      (runLabels env tr (initSys job_id req1)).job.completed_at := by
  have h : runLabels env tr (initSys job_id req2) =
      setReq req2 (runLabels env tr (initSys job_id req1)) := by
    have hinit : initSys job_id req2 = setReq req2 (initSys job_id req1) := rfl
    rw [hinit]
    exact runLabels_setReq env tr (initSys job_id req1) req2 ht.symm hm.symm
  exact ⟨h, by rw [h]; rfl, by rw [h]; rfl, by rw [h]; rfl, by rw [h]; rfl⟩

/-- Claim C10 witness: the sample requests differing in domains and
max_steps, run through a full successful schedule. -/
theorem domains_max_steps_no_effect_witness :
    reqSample.task = reqSampleB.task ∧ reqSample.model = reqSampleB.model ∧
    (runLabels envOk [Label.runnerStart, Label.agentReturn, Label.hbJoin]
        (initSys "j0" reqSampleB) =
      setReq reqSampleB (runLabels envOk [Label.runnerStart, Label.agentReturn, Label.hbJoin]
        (initSys "j0" reqSample)) ∧
     (runLabels envOk [Label.runnerStart, Label.agentReturn, Label.hbJoin]
        (initSys "j0" reqSampleB)).job.status =
      (runLabels envOk [Label.runnerStart, Label.agentReturn, Label.hbJoin]
        (initSys "j0" reqSample)).job.status ∧
     (runLabels envOk [Label.runnerStart, Label.agentReturn, Label.hbJoin]
        (initSys "j0" reqSampleB)).job.result =
      (runLabels envOk [Label.runnerStart, Label.agentReturn, Label.hbJoin]
        (initSys "j0" reqSample)).job.result ∧
     (runLabels envOk [Label.runnerStart, Label.agentReturn, Label.hbJoin]
        (initSys "j0" reqSampleB)).job.events_queue =
      (runLabels envOk [Label.runnerStart, Label.agentReturn, Label.hbJoin]
        (initSys "j0" reqSample)).job.events_queue ∧
     (runLabels envOk [Label.runnerStart, Label.agentReturn, Label.hbJoin]
        (initSys "j0" reqSampleB)).job.completed_at =
      (runLabels envOk [Label.runnerStart, Label.agentReturn, Label.hbJoin]
        (initSys "j0" reqSample)).job.completed_at) :=
  ⟨rfl, rfl,
    domains_max_steps_no_effect envOk "j0"
      [Label.runnerStart, Label.agentReturn, Label.hbJoin] reqSample reqSampleB rfl rfl⟩

/-- Claim C1 counterexample: in the enabled schedule where the cancel
handler runs while the Runner is suspended in agent.run(), the status
reaches the terminal state cancelled and afterwards the Runner moves it
to the other terminal state completed, so the status is not monotonic
over the interleaving of the Runner and the cancel handler. -/
theorem cancel_race_terminal_to_terminal :
    (runLabelsOpt envOk [Label.runnerStart, Label.cancel]
        (initSys "j0" reqSample)).map (fun s => s.job.status) =
      some Status.cancelled ∧
    (runLabelsOpt envOk [Label.runnerStart, Label.cancel, Label.agentReturn, Label.hbJoin]
        (initSys "j0" reqSample)).map (fun s => s.job.status) =
      some Status.completed ∧
    terminal Status.cancelled = true ∧ terminal Status.completed = true ∧
    Status.cancelled ≠ Status.completed := by
  refine ⟨?_, ?_, rfl, rfl, by decide⟩ <;> decide

/-- Claim C1 amended: in every schedule that contains no cancel
request, the status only moves forward along
pending, running, terminal (its rank never decreases) and once a
terminal state is reached the status never changes again; the cancel
handler, racing the Runner, breaks this (see the counterexample). -/
theorem status_monotone_without_cancel (env : Env) (job_id : String)
    (req : StartJobRequest) (tr1 tr2 : List Label)
    (h1 : Label.cancel ∉ tr1) (h2 : Label.cancel ∉ tr2) :
    rank (runLabels env tr1 (initSys job_id req)).job.status ≤
      rank (runLabels env (tr1 ++ tr2) (initSys job_id req)).job.status ∧
    (terminal (runLabels env tr1 (initSys job_id req)).job.status = true →
      (runLabels env (tr1 ++ tr2) (initSys job_id req)).job.status =
        (runLabels env tr1 (initSys job_id req)).job.status) := by
  have hInv1 := (run_preserve env tr1 h1 (initSys job_id req) (Inv_initSys job_id req)).1
  have h := run_preserve env tr2 h2 (runLabels env tr1 (initSys job_id req)) hInv1
  rw [runLabels_append]
  exact ⟨h.2.1, h.2.2⟩

/-- Claim C1 amended witness: a cancel-free successful schedule split
after the first step. -/
theorem status_monotone_without_cancel_witness :
    Label.cancel ∉ [Label.runnerStart] ∧
    Label.cancel ∉ [Label.agentReturn, Label.hbJoin] ∧
    (rank (runLabels envOk [Label.runnerStart] (initSys "j0" reqSample)).job.status ≤
      rank (runLabels envOk ([Label.runnerStart] ++ [Label.agentReturn, Label.hbJoin])
        (initSys "j0" reqSample)).job.status ∧
     (terminal (runLabels envOk [Label.runnerStart] (initSys "j0" reqSample)).job.status = true →
      (runLabels envOk ([Label.runnerStart] ++ [Label.agentReturn, Label.hbJoin])
        (initSys "j0" reqSample)).job.status =
        (runLabels envOk [Label.runnerStart] (initSys "j0" reqSample)).job.status)) :=
  ⟨by decide, by decide,
    status_monotone_without_cancel envOk "j0" reqSample [Label.runnerStart]
      [Label.agentReturn, Label.hbJoin] (by decide) (by decide)⟩

/-- Claim C2 counterexample: in the enabled schedule where the cancel
handler runs while the Runner awaits agent.run(), the cancel handler
pushes a browser_done and the Runner later pushes a second
browser_done, so two terminal events appear and events follow the
first one. -/
theorem second_done_after_cancel_race :
    (runLabelsOpt envOk
        [Label.runnerStart, Label.hbBeat, Label.cancel, Label.agentReturn, Label.hbJoin]
        (initSys "j0" reqSample)).map (fun s => doneCount s.job.events_queue) =
      some 2 ∧
    (runLabelsOpt envOk
        [Label.runnerStart, Label.hbBeat, Label.cancel, Label.agentReturn, Label.hbJoin]
        (initSys "j0" reqSample)).map (fun s => s.job.events_queue) =
      some [Event.browser_started "j0" "t",
            Event.browser_action "Working... step 1",
            Event.browser_error "Cancelled by user",
            Event.browser_done { summary := some "Cancelled" },
            Event.browser_done { summary := some "hello", links := some [] }] := by
  constructor <;> decide

/-- Claim C2 amended: in every schedule that contains no cancel
request, at most one browser_done is ever pushed on the channel, and
when the job reaches a terminal status exactly one browser_done was
pushed and it is the last event ever pushed; the cancel race breaks
this (see the counterexample). -/
theorem single_done_last_without_cancel (env : Env) (job_id : String)
    (req : StartJobRequest) (tr : List Label) (h : Label.cancel ∉ tr) :
    doneCount (runLabels env tr (initSys job_id req)).job.events_queue ≤ 1 ∧
    (terminal (runLabels env tr (initSys job_id req)).job.status = true →
      doneCount (runLabels env tr (initSys job_id req)).job.events_queue = 1 ∧
      lastIsDone (runLabels env tr (initSys job_id req)).job.events_queue = true) := by
  have hInv := (run_preserve env tr h (initSys job_id req) (Inv_initSys job_id req)).1
  cases hpc : (runLabels env tr (initSys job_id req)).pc with
  | start =>
    obtain ⟨h1, _, h3, _⟩ := hInv.1 hpc
    refine ⟨by rw [h3]; exact Nat.zero_le 1, fun ht => ?_⟩
    rw [h1] at ht
    exact absurd ht (by simp [terminal])
  | awaitingAgent =>
    obtain ⟨h1, _, h3⟩ := hInv.2.1 hpc
    refine ⟨by rw [h3]; exact Nat.zero_le 1, fun ht => ?_⟩
    rw [h1] at ht
    exact absurd ht (by simp [terminal])
  | awaitingHb t =>
    obtain ⟨h1, _, h3, _⟩ := hInv.2.2.1 t hpc
    refine ⟨by rw [h3]; exact Nat.zero_le 1, fun ht => ?_⟩
    rw [h1] at ht
    exact absurd ht (by simp [terminal])
  | done =>
    obtain ⟨_, _, h3, h4⟩ := hInv.2.2.2 hpc
    exact ⟨le_of_eq h3, fun _ => ⟨h3, h4⟩⟩

/-- Claim C2 amended witness: a cancel-free successful schedule. -/
theorem single_done_last_without_cancel_witness :
    Label.cancel ∉ [Label.runnerStart, Label.hbBeat, Label.agentReturn, Label.hbJoin] ∧
    (doneCount (runLabels envOk
        [Label.runnerStart, Label.hbBeat, Label.agentReturn, Label.hbJoin]
        (initSys "j0" reqSample)).job.events_queue ≤ 1 ∧
     (terminal (runLabels envOk
          [Label.runnerStart, Label.hbBeat, Label.agentReturn, Label.hbJoin]
          (initSys "j0" reqSample)).job.status = true →
       doneCount (runLabels envOk
          [Label.runnerStart, Label.hbBeat, Label.agentReturn, Label.hbJoin]
          (initSys "j0" reqSample)).job.events_queue = 1 ∧
       lastIsDone (runLabels envOk
          [Label.runnerStart, Label.hbBeat, Label.agentReturn, Label.hbJoin]
          (initSys "j0" reqSample)).job.events_queue = true)) :=
  ⟨by decide,
    single_done_last_without_cancel envOk "j0" reqSample
      [Label.runnerStart, Label.hbBeat, Label.agentReturn, Label.hbJoin] (by decide)⟩

/-- Claim C3 counterexample: in the enabled schedule where a running
job is cancelled, the cancel handler pushes the terminal browser_done
(count one) while job.result is still null and the status is the
terminal state cancelled, so a cancelled job does not have a populated
result after its terminal event. -/
theorem cancelled_job_result_none :
    (runLabelsOpt envOk [Label.runnerStart, Label.cancel]
        (initSys "j0" reqSample)).map
      (fun s => (s.job.status, s.job.result, doneCount s.job.events_queue)) =
      some (Status.cancelled, none, 1) := by decide

/-- Claim C3 amended: in every schedule that contains no cancel
request, job.result is null exactly as long as no browser_done has been
pushed, and is set to a non-null payload whenever a browser_done has
been pushed; the cancel handler instead pushes its browser_done without
writing job.result (the fallback payload goes only into the event), so
a job whose terminal status is cancelled can keep a null result (see
the counterexample). -/
theorem result_set_iff_done_without_cancel (env : Env) (job_id : String)
    (req : StartJobRequest) (tr : List Label) (h : Label.cancel ∉ tr) :
    ((runLabels env tr (initSys job_id req)).job.result = none ↔
      doneCount (runLabels env tr (initSys job_id req)).job.events_queue = 0) ∧
    (0 < doneCount (runLabels env tr (initSys job_id req)).job.events_queue →
      ((runLabels env tr (initSys job_id req)).job.result).isSome = true) := by
  have hInv := (run_preserve env tr h (initSys job_id req) (Inv_initSys job_id req)).1
  cases hpc : (runLabels env tr (initSys job_id req)).pc with
  | start =>
    obtain ⟨_, h2, h3, _⟩ := hInv.1 hpc
    exact ⟨by rw [h2, h3]; simp, fun hd => absurd (h3 ▸ hd) (by simp)⟩
  | awaitingAgent =>
    obtain ⟨_, h2, h3⟩ := hInv.2.1 hpc
    exact ⟨by rw [h2, h3]; simp, fun hd => absurd (h3 ▸ hd) (by simp)⟩
  | awaitingHb t =>
    obtain ⟨_, h2, h3, _⟩ := hInv.2.2.1 t hpc
    exact ⟨by rw [h2, h3]; simp, fun hd => absurd (h3 ▸ hd) (by simp)⟩
  | done =>
    obtain ⟨_, h2, h3, _⟩ := hInv.2.2.2 hpc
    refine ⟨⟨fun hr => ?_, fun hd => ?_⟩, fun _ => h2⟩
    · rw [hr] at h2; exact absurd h2 (by simp)
    · rw [h3] at hd; exact absurd hd (by simp)

/-- Claim C3 amended witness: a cancel-free successful schedule. -/
theorem result_set_iff_done_without_cancel_witness :
    Label.cancel ∉ [Label.runnerStart, Label.agentReturn, Label.hbJoin] ∧
    (((runLabels envOk [Label.runnerStart, Label.agentReturn, Label.hbJoin]
        (initSys "j0" reqSample)).job.result = none ↔
      doneCount (runLabels envOk [Label.runnerStart, Label.agentReturn, Label.hbJoin]
        (initSys "j0" reqSample)).job.events_queue = 0) ∧
     (0 < doneCount (runLabels envOk [Label.runnerStart, Label.agentReturn, Label.hbJoin]
        (initSys "j0" reqSample)).job.events_queue →
       ((runLabels envOk [Label.runnerStart, Label.agentReturn, Label.hbJoin]
        (initSys "j0" reqSample)).job.result).isSome = true)) :=
  ⟨by decide,
    result_set_iff_done_without_cancel envOk "j0" reqSample
      [Label.runnerStart, Label.agentReturn, Label.hbJoin] (by decide)⟩

end BrowserAgent
